import Mathlib

/-!
# tinygo-org/bootloader: DFU client and stub DFU service

A shallow embedding of `dfuclient/file.go` (`extractELF`), `dfuclient/main.go`
(`main`) and `dfuservice/service.go` (the command characteristic's
`WriteEvent`), followed by theorems about them.

Conventions.
* `uint64` / `uint32` values are natural numbers; every operation that can wrap
  in Go is written with an explicit `% 2 ^ 64` / `% 2 ^ 32`.
* A Go `error` is an `Option String`: `none` is `nil`, `some text` an error
  whose `Error()` is `text`.
* A Go run-time panic (slice bounds out of range) is an explicit outcome.
* Printing to standard output is left out.
-/

namespace Bootloader

/-! ## `dfuclient/file.go` -/

/-- `elf.SHT_PROGBITS`. -/
def SHT_PROGBITS : Nat := 1

/-- `elf.SHF_ALLOC`. -/
def SHF_ALLOC : Nat := 2

/-- `elf.PT_LOAD`. -/
def PT_LOAD : Nat := 1

/-- Conversion to `uint64` / wrap-around of `uint64` arithmetic. -/
def u64 (n : Nat) : Nat := n % 2 ^ 64

/-- The fields of `elf.Section` that `extractELF` reads (`Typ` is the field
`Type`). -/
structure Section where
  Typ : Nat
  Flags : Nat
  Addr : Nat
  deriving DecidableEq, Repr

/-- The fields of `elf.Prog` that `extractELF` reads (`Typ` is the field
`Type`).  `body` is what
`ioutil.ReadAll(prog.Open())` yields: `none` when the read fails, otherwise the
bytes of the segment as found in the file. -/
structure Prog where
  Typ : Nat
  Paddr : Nat
  Filesz : Nat
  body : Option (List Nat)
  deriving DecidableEq, Repr

/-- The part of `elf.File` that `extractELF` reads (the result of
`elf.NewFile`). -/
structure File where
  Sections : List Section
  Progs : List Prog
  deriving DecidableEq, Repr

/-- What a call of `extractELF` can end in: the returned `(address, image)`
pair with a `nil` error, a non-`nil` error, or a Go run-time panic (an index or
slice bound out of range). -/
inductive Extracted where
  | image (loadAddress : Nat) (bytes : List Nat)
  | failure (msg : String)
  | panic
  deriving DecidableEq, Repr

/-- `progSlice.Less` on two elements. -/
def progLess (p q : Prog) : Bool := decide (p.Paddr < q.Paddr)

/-- Insertion of one element into an ordered list: it passes the elements that
are `Less` than it. -/
def insertProg (p : Prog) : List Prog → List Prog
  | [] => [p]
  | q :: qs => if progLess q p then q :: insertProg p qs else p :: q :: qs

/-- One implementation of `sort.Sort(progs)`: an insertion sort driven by
`progSlice.Less`, which keeps segments of equal `Paddr` in file order. -/
def sortProgs : List Prog → List Prog
  | [] => []
  | p :: ps => insertProg p (sortProgs ps)

/-- The contract of `sort.Sort` on a `progSlice`: the slice is rearranged (a
permutation) so that no element is `Less` than an earlier one.  The order of
elements with equal `Paddr` is left open, as `sort.Sort` is not stable. -/
def SortContract (sortFn : List Prog → List Prog) : Prop :=
  ∀ l, (sortFn l).Perm l ∧ (sortFn l).Pairwise (fun p q => p.Paddr ≤ q.Paddr)

/-- Lines 33-42: the lowest address of a `PROGBITS` section with the `ALLOC`
flag, starting from `^uint64(0)`. -/
def lowestSection (sections : List Section) : Nat :=
  sections.foldl
    (fun startAddr s =>
      if s.Typ ≠ SHT_PROGBITS ∨ s.Flags &&& SHF_ALLOC = 0 then startAddr
      else if s.Addr < startAddr then s.Addr else startAddr)
    (2 ^ 64 - 1)

/-- Lines 44-50: the `PT_LOAD` segments with a non-zero `Filesz`, in file
order. -/
def loadable (progs : List Prog) : List Prog :=
  progs.filter (fun p => !(decide (p.Typ ≠ PT_LOAD) || decide (p.Filesz = 0)))

/-- Lines 56-66: the loop over the sorted segments.  `base` is
`progs[0].Paddr`, `rom` the bytes appended so far. -/
def appendSegments (base : Nat) : List Prog → List Nat → Except String (List Nat)
  | [], rom => .ok rom
  | p :: ps, rom =>
    if p.Paddr ≠ u64 (base + u64 rom.length) then
      .error "ROM segments are non-contiguous"
    else
      match p.body with
      | none => .error "failed to extract segment from ELF file"
      | some data => appendSegments base ps (rom ++ data)

/-- Lines 33-76 of `extractELF`, on an opened ELF file.  `sortFn` is
`sort.Sort`. -/
def extractELF (sortFn : List Prog → List Prog) (f : File) : Extracted :=
  let startAddr := lowestSection f.Sections
  let progs := loadable f.Progs
  if progs.length = 0 then
    .failure "file does not contain ROM segments"
  else
    let progs := sortFn progs
    match progs with
    | [] => .panic
    | first :: _ =>
      match appendSegments first.Paddr progs [] with
      | .error msg => .failure msg
      | .ok rom =>
        if first.Paddr < startAddr then
          if startAddr - first.Paddr ≤ rom.length then
            .image startAddr (rom.drop (startAddr - first.Paddr))
          else
            .panic
        else
          .image first.Paddr rom

/-! ## `dfuclient/main.go` -/

/-- Command `commandResetBootloader`. -/
def commandResetBootloader : Nat := 0x00

/-- Command `commandReset`. -/
def commandReset : Nat := 0x01

/-- Command `commandStart`. -/
def commandStart : Nat := 0x02

/-- Status `statusPong`. -/
def statusPong : Nat := 0x01

/-- Status `statusEraseStarted`. -/
def statusEraseStarted : Nat := 0x02

/-- Status `statusEraseFinished`. -/
def statusEraseFinished : Nat := 0x03

/-- Status `statusWriteFinished`. -/
def statusWriteFinished : Nat := 0x04

/-- Status `statusBusy`. -/
def statusBusy : Nat := 0x10

/-- Status `statusInvalidEraseStart`. -/
def statusInvalidEraseStart : Nat := 0x20

/-- Status `statusInvalidEraseLength`. -/
def statusInvalidEraseLength : Nat := 0x21

/-- Status `statusEraseFailed`. -/
def statusEraseFailed : Nat := 0x30

/-- Status `statusWriteFailed`. -/
def statusWriteFailed : Nat := 0x31

/-- Status `statusWriteTooFast`. -/
def statusWriteTooFast : Nat := 0x32

/-- Conversion to `uint32`. -/
def u32 (n : Nat) : Nat := n % 2 ^ 32

/-- The verb `%x` of `fmt` on a non-negative number. -/
def hex (n : Nat) : String := String.mk (Nat.toDigits 16 n)

/-- A Go byte slice: `backing` holds the elements from index 0 up to the
capacity, of which the first `len` are the elements of the slice. -/
structure ByteSlice where
  backing : List Nat
  len : Nat
  deriving DecidableEq, Repr

/-- Capacity `cap(data)`. -/
def ByteSlice.cap (d : ByteSlice) : Nat := d.backing.length

/-- The elements of the slice, `data[0:len(data)]`. -/
def ByteSlice.bytes (d : ByteSlice) : List Nat := d.backing.take d.len

/-- The slice expression `data[lo:hi]`: it needs `lo <= hi <= cap(data)`
(`hi` may exceed `len(data)`), and panics (`none`) otherwise. -/
def ByteSlice.slice (d : ByteSlice) (lo hi : Nat) : Option (List Nat) :=
  if lo ≤ hi ∧ hi ≤ d.cap then some ((d.backing.take hi).drop lo) else none

/-- The slice whose capacity equals its length. -/
def ByteSlice.exact (bytes : List Nat) : ByteSlice := ⟨bytes, bytes.length⟩

/-- What the transport reports during one pass of scan, connect and
discovery. `stopScanErr` is the result of `adapter.StopScan()` inside the scan
callback, `scanErr` the result of `adapter.Scan` itself. -/
structure Link where
  stopScanErr : Option String
  scanErr : Option String
  connectErr : Option String
  servicesErr : Option String
  charsErr : Option String

/-- The collaborators of one run of `main`: the results of the transport
calls (an error is given by its `Error()` text) and the status bytes the peer
notifies, in order of arrival on `responseChan`.  A call that returns no error
delivers what was asked for (one service, two characteristics, a notification
of at least one byte).  `peer` is `foundDevice.Address`; `first` belongs to
lines 66-97 and `again` to lines 126-151; `chunkErr k` is what the write of
chunk `k` returns. -/
structure Env where
  enableErr : Option String
  peer : Nat
  first : Link
  kickErr : Option String
  eraseErr : Option String
  again : Link
  retryErr : Option String
  chunkErr : Nat → Option String
  resetErr : Option String
  statuses : List Nat

/-- What `main` does to the outside, apart from printing to standard output.
`conn` is 0 for the characteristics of the first connection and 1 for those
found after the reconnect; `err` is what the write returned. -/
inductive Event where
  | noFit (lo hi : Nat)
  | enable
  | scan
  | connect (address : Nat)
  | discoverServices (conn : Nat)
  | discoverCharacteristics (conn : Nat)
  | enableNotifications (conn : Nat)
  | command (conn : Nat) (payload : List Nat) (err : Option String)
  | data (conn : Nat) (payload : List Nat) (err : Option String)
  | rescan (address : Nat)
  | status (value : Nat)
  deriving DecidableEq, Repr

/-- How a run of `main` ends: `main` returns; `handleError` prints
`msg: err` and calls `os.Exit(1)`; a run-time panic; or a receive on
`responseChan` that never gets a value. -/
inductive Outcome where
  | completed
  | exited (msg err : String)
  | panicked
  | blocked
  deriving DecidableEq, Repr

/-- A run: what was done, in order, and how it ended. -/
structure Run where
  trace : List Event
  outcome : Outcome
  deriving DecidableEq, Repr

/-- The run that does `e` and goes on as `r`. -/
def Run.after (e : Event) (r : Run) : Run := ⟨e :: r.trace, r.outcome⟩

/-- Function `handleError`: exit with status 1 when `err` is not `nil`,
otherwise go on. -/
def handleError (msg : String) (err : Option String) (rest : Run) : Run :=
  match err with
  | some e => ⟨[], .exited msg e⟩
  | none => rest

/-- `binary.Write(buf, binary.LittleEndian, v)` for a `uint32`. -/
def putUint32 (v : Nat) : List Nat :=
  [v % 256, (v >>> 8) % 256, (v >>> 16) % 256, (v >>> 24) % 256]

/-- Lines 116-119: the contents of `buf`. -/
def eraseCommand (startAddr len : Nat) : List Nat :=
  [commandStart, 0, 0, 0] ++ putUint32 (u32 startAddr) ++ putUint32 (u32 len)

/-- Lines 169-183: the error the terminal erase status is turned into. -/
def eraseStatusError (status startAddr len : Nat) : Option String :=
  if status = statusEraseFinished then none
  else if status = statusInvalidEraseStart then
    some ("invalid start address: 0x" ++ hex startAddr)
  else if status = statusInvalidEraseLength then some ("invalid length: 0x" ++ hex len)
  else if status = statusBusy then some "an operation is already in progress"
  else if status = statusEraseFailed then some "failed to erase flash"
  else some ("unknown error (0x" ++ hex status ++ ")")

/-- Lines 197-205: the error the write status is turned into. -/
def writeStatusError (status : Nat) : Option String :=
  if status = statusWriteFinished then none
  else if status = statusWriteFailed then some "write failed"
  else if status = statusWriteTooFast then some "write was too fast"
  else some ("unknown (code 0x" ++ hex status ++ ")")

/-- Lines 193-211: wait for the write status, then reset the device. -/
def awaitWrite (env : Env) (conn : Nat) (queue : List Nat) : Run :=
  match queue with
  | [] => ⟨[], .blocked⟩
  | status :: _ =>
    Run.after (.status status) <|
    handleError "failed to write new application" (writeStatusError status) <|
    Run.after (.command conn [commandReset] env.resetErr) ⟨[], .completed⟩

/-- Lines 188-191: the loop `for i := 0; i < len(data); i += 20`, entered with
the given `i`; the result of `WriteWithoutResponse` is dropped.  `fuel` bounds
the number of iterations; `writeLoop_fuel` shows that `len(data)` is enough. -/
def writeLoop (env : Env) (conn : Nat) (data : ByteSlice) (rest : Run) : Nat → Nat → Run
  | 0, _ => rest
  | fuel + 1, i =>
    if i < data.len then
      match data.slice i (i + 20) with
      | none => ⟨[], .panicked⟩
      | some chunk =>
        Run.after (.data conn chunk (env.chunkErr (i / 20))) <|
        writeLoop env conn data rest fuel (i + 20)
    else rest

/-- Lines 186-211: the write phase and what follows. -/
def writePhase (env : Env) (conn : Nat) (data : ByteSlice) (queue : List Nat) : Run :=
  writeLoop env conn data (awaitWrite env conn queue) data.len 0

/-- Lines 169-211: the terminal erase status is mapped to an error; without
one the write phase starts. -/
def afterErase (env : Env) (conn startAddr : Nat) (data : ByteSlice) (status : Nat)
    (queue : List Nat) : Run :=
  handleError "could not erase flash" (eraseStatusError status startAddr data.len) <|
  writePhase env conn data queue

/-- Lines 162-211: wait for the erase status (two receives when the first is
`statusEraseStarted`). -/
def awaitErase (env : Env) (conn startAddr : Nat) (data : ByteSlice) (queue : List Nat) :
    Run :=
  match queue with
  | [] => ⟨[], .blocked⟩
  | status :: queue =>
    Run.after (.status status) <|
    if status = statusEraseStarted then
      match queue with
      | [] => ⟨[], .blocked⟩
      | status :: queue => Run.after (.status status) <| afterErase env conn startAddr data status queue
    else afterErase env conn startAddr data status queue

/-- Lines 115-211.  In the reconnect branch (lines 122-157) the declaration
`device, err := adapter.Connect(...)` on line 140 introduces a new `err` that
lives until line 157; the retried write on line 156 assigns that one.  The
`err` that line 160 hands to `handleError` is the variable of line 55, last
assigned by `adapter.Scan` on line 126. -/
def startErase (env : Env) (startAddr : Nat) (data : ByteSlice) : Run :=
  let buf := eraseCommand startAddr data.len
  Run.after (.command 0 buf env.eraseErr) <|
  if env.eraseErr = some "Not connected" then
    Run.after (.rescan env.peer) <|
    handleError "could not stop the scan" env.again.stopScanErr <|
    handleError "could not start a scan" env.again.scanErr <|
    Run.after (.connect env.peer) <|
    handleError "failed to connect" env.again.connectErr <|
    Run.after (.discoverServices 1) <|
    handleError "failed to discover the DFU service" env.again.servicesErr <|
    Run.after (.discoverCharacteristics 1) <|
    handleError "failed to discover characteristics" env.again.charsErr <|
    Run.after (.command 1 buf env.retryErr) <|
    handleError "failed to send erase command" env.again.scanErr <|
    awaitErase env 1 startAddr data env.statuses
  else
    handleError "failed to send erase command" env.eraseErr <|
    awaitErase env 0 startAddr data env.statuses

/-- Lines 61-211: everything `main` does after the range check. -/
def session (env : Env) (startAddr : Nat) (data : ByteSlice) : Run :=
  Run.after .enable <|
  handleError "could not enable BLE adapter" env.enableErr <|
  Run.after .scan <|
  handleError "could not stop the scan" env.first.stopScanErr <|
  handleError "could not start a scan" env.first.scanErr <|
  Run.after (.connect env.peer) <|
  handleError "failed to connect" env.first.connectErr <|
  Run.after (.discoverServices 0) <|
  handleError "failed to discover the DFU service" env.first.servicesErr <|
  Run.after (.discoverCharacteristics 0) <|
  handleError "failed to discover characteristics" env.first.charsErr <|
  Run.after (.enableNotifications 0) <|
  Run.after (.command 0 [commandResetBootloader] env.kickErr) <|
  handleError "failed to send reset bootloader command" env.kickErr <|
  startErase env startAddr data

/-- Function `main` from line 55 on; `input` is what `readInput` returned. -/
def main (env : Env) (input : Except String (Nat × ByteSlice)) : Run :=
  match input with
  | .error e => handleError "could not read input file" (some e) ⟨[], .completed⟩
  | .ok (startAddr, data) =>
    if u64 (startAddr + u64 data.len) > 0xffffffff then
      Run.after (.noFit startAddr (u64 (startAddr + u64 data.len))) <|
      session env startAddr data
    else session env startAddr data

/-- A transport on which every call succeeds and which notifies the given
status bytes. -/
def Env.healthy (statuses : List Nat) : Env :=
  { enableErr := none, peer := 7, first := ⟨none, none, none, none, none⟩,
    kickErr := none, eraseErr := none, again := ⟨none, none, none, none, none⟩,
    retryErr := none, chunkErr := fun _ => none, resetErr := none, statuses := statuses }

/-- The payloads written to the data characteristic, in order. -/
def Run.chunks (r : Run) : List (List Nat) :=
  r.trace.filterMap (fun e => match e with
    | .data _ payload _ => some payload
    | _ => none)

/-- The payloads written to the command characteristic, in order. -/
def Run.commands (r : Run) : List (List Nat) :=
  r.trace.filterMap (fun e => match e with
    | .command _ payload _ => some payload
    | _ => none)

/-- The transport calls up to the discovery of the two characteristics
succeed. -/
def Env.connected (env : Env) : Prop :=
  env.enableErr = none ∧ env.first.stopScanErr = none ∧ env.first.scanErr = none ∧
  env.first.connectErr = none ∧ env.first.servicesErr = none ∧ env.first.charsErr = none

instance (env : Env) : Decidable env.connected :=
  inferInstanceAs (Decidable (env.enableErr = none ∧ env.first.stopScanErr = none ∧
    env.first.scanErr = none ∧ env.first.connectErr = none ∧
    env.first.servicesErr = none ∧ env.first.charsErr = none))

/-- An image of 45 bytes `0xAA` in a backing array of `cap` bytes (zero
behind the image). -/
def image45 (cap : Nat) : ByteSlice :=
  ⟨List.replicate 45 0xAA ++ List.replicate (cap - 45) 0, 45⟩

/-- A transport on which the first `StartErase` write and its retry both
report a lost link, while the peer notifies `EraseFinished` and
`WriteFinished`. -/
def Env.retryFails : Env :=
  { Env.healthy [0x03, 0x04] with
    eraseErr := some "Not connected", retryErr := some "Not connected" }

/-- A transport on which the write of the first data chunk reports a lost
link. -/
def Env.chunkFails : Env :=
  { Env.healthy [0x03, 0x04] with
    chunkErr := fun k => if k = 0 then some "Not connected" else none }

/-- A transport on which the `ResetToUpdateMode` write reports a lost link. -/
def Env.kickFails : Env :=
  { Env.healthy [0x03, 0x04] with kickErr := some "Not connected" }

/-- Two runs end the same way and write the same payloads, in the same
order, to each characteristic. -/
def Run.Agree (r r' : Run) : Prop :=
  r.outcome = r'.outcome ∧ r.chunks = r'.chunks ∧ r.commands = r'.commands

/-! ## `dfuservice/service.go` -/

/-- What the `WriteEvent` handler of the command characteristic does to the
device. -/
inductive Action where
  | svcall0 (number : Nat)
  | setGPREGRET (value : Nat)
  | systemReset
  deriving DecidableEq, Repr

/-- Lines 33-53: the `WriteEvent` handler of the command characteristic. -/
def writeEvent (offset : Int) (value : List Nat) : List Action :=
  if offset = 0 ∧ value.length = 1 ∧ value.head? = some 0 then
    [.svcall0 0x11, .setGPREGRET 1, .systemReset]
  else []

/-! ### Vocabulary of the statements about `extractELF` -/

/-- The bytes of a segment as read from the file (empty when unreadable). -/
def fileBytes (p : Prog) : List Nat := p.body.getD []

/-- Consecutive segments touch: each one starts where the previous one ends. -/
def contiguous : List Prog → Bool
  | p :: q :: rest =>
    decide (q.Paddr = p.Paddr + (fileBytes p).length) && contiguous (q :: rest)
  | _ => true

/-- Consecutive segments touch, as a proposition. -/
def Contiguous (s : List Prog) : Prop := contiguous s = true

instance (s : List Prog) : Decidable (Contiguous s) :=
  inferInstanceAs (Decidable (contiguous s = true))

/-- The contents of the segments, one after the other. -/
def concatBytes (s : List Prog) : List Nat :=
  s.foldr (fun p acc => fileBytes p ++ acc) []

/-- A section that takes part in the search for the lowest address. -/
def Section.copied (s : Section) : Prop :=
  s.Typ = SHT_PROGBITS ∧ s.Flags &&& SHF_ALLOC ≠ 0

instance (s : Section) : Decidable s.copied :=
  inferInstanceAs (Decidable (s.Typ = SHT_PROGBITS ∧ s.Flags &&& SHF_ALLOC ≠ 0))

/-- The value ranges of the Go types: addresses are `uint64`, and the length
of a byte slice is a non-negative `int`. -/
def InRange (f : File) : Prop :=
  (∀ s ∈ f.Sections, s.Addr < 2 ^ 64) ∧
  ∀ p ∈ f.Progs, p.Paddr < 2 ^ 64 ∧ (fileBytes p).length < 2 ^ 63

instance (f : File) : Decidable (InRange f) :=
  inferInstanceAs (Decidable ((∀ s ∈ f.Sections, s.Addr < 2 ^ 64) ∧
    ∀ p ∈ f.Progs, p.Paddr < 2 ^ 64 ∧ (fileBytes p).length < 2 ^ 63))

/-- Every segment that is kept can be read from the file. -/
def Readable (f : File) : Prop :=
  ∀ p ∈ loadable f.Progs, p.body ≠ none

instance (f : File) : Decidable (Readable f) :=
  inferInstanceAs (Decidable (∀ p ∈ loadable f.Progs, p.body ≠ none))

/-- A file whose only `PROGBITS`/`ALLOC` section lies behind the end of its
only segment. -/
def sectionBehindImage : File :=
  ⟨[⟨SHT_PROGBITS, SHF_ALLOC, 0x100⟩], [⟨PT_LOAD, 0, 4, some [1, 2, 3, 4]⟩]⟩

/-- A file without section headers and with one four-byte segment at
address 0. -/
def noSections : File :=
  ⟨[], [⟨PT_LOAD, 0, 4, some [1, 2, 3, 4]⟩]⟩

/-- Two touching segments listed in reverse address order; the code section
starts two bytes into the lower one. -/
def twoSegments : File :=
  ⟨[⟨SHT_PROGBITS, SHF_ALLOC, 2⟩],
   [⟨PT_LOAD, 4, 2, some [7, 8]⟩, ⟨PT_LOAD, 0, 4, some [1, 2, 3, 4]⟩]⟩

/-- Two segments with a two-byte gap between them. -/
def gapSegments : File :=
  ⟨[⟨SHT_PROGBITS, SHF_ALLOC, 0⟩],
   [⟨PT_LOAD, 6, 2, some [7, 8]⟩, ⟨PT_LOAD, 0, 4, some [1, 2, 3, 4]⟩]⟩

/-! ## Theorems about `extractELF` -/

theorem insertProg_perm (p : Prog) (l : List Prog) : (insertProg p l).Perm (p :: l) := by
  induction l with
  | nil => exact List.Perm.refl _
  | cons q qs ih =>
    unfold insertProg
    split
    · exact ((List.Perm.cons q ih).trans (List.Perm.swap p q qs))
    · exact List.Perm.refl _

theorem sortProgs_perm (l : List Prog) : (sortProgs l).Perm l := by
  induction l with
  | nil => exact List.Perm.refl _
  | cons p ps ih => exact (insertProg_perm p _).trans (List.Perm.cons p ih)

theorem insertProg_sorted (p : Prog) (l : List Prog)
    (h : l.Pairwise (fun a b => a.Paddr ≤ b.Paddr)) :
    (insertProg p l).Pairwise (fun a b => a.Paddr ≤ b.Paddr) := by
  induction l with
  | nil => simp [insertProg]
  | cons q qs ih =>
    rw [List.pairwise_cons] at h
    unfold insertProg
    split
    · rename_i hlt
      rw [List.pairwise_cons]
      refine ⟨?_, ih h.2⟩
      intro a ha
      have hmem := (insertProg_perm p qs).mem_iff.mp ha
      simp only [progLess, decide_eq_true_eq] at hlt
      simp only [List.mem_cons] at hmem
      rcases hmem with rfl | hmem
      · omega
      · exact h.1 a hmem
    · rename_i hlt
      simp only [progLess, decide_eq_true_eq, not_lt] at hlt
      rw [List.pairwise_cons]
      refine ⟨?_, List.pairwise_cons.mpr h⟩
      intro a ha
      simp only [List.mem_cons] at ha
      rcases ha with rfl | ha
      · exact hlt
      · exact le_trans hlt (h.1 a ha)

theorem sortProgs_contract : SortContract sortProgs := by
  intro l
  refine ⟨sortProgs_perm l, ?_⟩
  induction l with
  | nil => simp [sortProgs]
  | cons p ps ih => exact insertProg_sorted p _ ih

/-- The search of lines 33-42, started from any value: the result is at most
the start value, at most the address of every copied section, and is either the
start value or the address of a copied section. -/
theorem lowest_foldl (l : List Section) (init : Nat) :
    let r := l.foldl
      (fun startAddr s =>
        if s.Typ ≠ SHT_PROGBITS ∨ s.Flags &&& SHF_ALLOC = 0 then startAddr
        else if s.Addr < startAddr then s.Addr else startAddr) init
    r ≤ init ∧ (∀ s ∈ l, s.copied → r ≤ s.Addr) ∧
      (r = init ∨ ∃ s ∈ l, s.copied ∧ s.Addr = r) := by
  induction l generalizing init with
  | nil => simp
  | cons a as ih =>
    simp only [List.foldl_cons]
    by_cases hskip : a.Typ ≠ SHT_PROGBITS ∨ a.Flags &&& SHF_ALLOC = 0
    · rw [if_pos hskip]
      obtain ⟨h1, h2, h3⟩ := ih init
      refine ⟨h1, ?_, ?_⟩
      · intro s hs hc
        rcases List.mem_cons.mp hs with rfl | hs
        · exact absurd hc (by
            unfold Section.copied
            rcases hskip with h | h
            · exact fun hc => h hc.1
            · exact fun hc => hc.2 h)
        · exact h2 s hs hc
      · rcases h3 with h3 | ⟨s, hs, hc, he⟩
        · exact Or.inl h3
        · exact Or.inr ⟨s, List.mem_cons_of_mem _ hs, hc, he⟩
    · rw [if_neg hskip]
      have hcop : a.copied := by
        unfold Section.copied
        constructor
        · by_contra h; exact hskip (Or.inl h)
        · intro h; exact hskip (Or.inr h)
      by_cases hlt : a.Addr < init
      · rw [if_pos hlt]
        obtain ⟨h1, h2, h3⟩ := ih a.Addr
        refine ⟨by omega, ?_, ?_⟩
        · intro s hs hc
          rcases List.mem_cons.mp hs with rfl | hs
          · exact h1
          · exact h2 s hs hc
        · rcases h3 with h3 | ⟨s, hs, hc, he⟩
          · exact Or.inr ⟨a, List.mem_cons_self _ _, hcop, h3.symm⟩
          · exact Or.inr ⟨s, List.mem_cons_of_mem _ hs, hc, he⟩
      · rw [if_neg hlt]
        obtain ⟨h1, h2, h3⟩ := ih init
        refine ⟨h1, ?_, ?_⟩
        · intro s hs hc
          rcases List.mem_cons.mp hs with rfl | hs
          · omega
          · exact h2 s hs hc
        · rcases h3 with h3 | ⟨s, hs, hc, he⟩
          · exact Or.inl h3
          · exact Or.inr ⟨s, List.mem_cons_of_mem _ hs, hc, he⟩

/-- `lowestSection` is a lower bound of the addresses of the copied
sections. -/
theorem lowestSection_le (l : List Section) (s : Section) (hs : s ∈ l) (hc : s.copied) :
    lowestSection l ≤ s.Addr :=
  (lowest_foldl l (2 ^ 64 - 1)).2.1 s hs hc

/-- When a copied section exists, `lowestSection` is the address of one. -/
theorem lowestSection_attained (l : List Section) (hr : ∀ s ∈ l, s.Addr < 2 ^ 64)
    (hex : ∃ s ∈ l, s.copied) : ∃ s ∈ l, s.copied ∧ s.Addr = lowestSection l := by
  rcases (lowest_foldl l (2 ^ 64 - 1)).2.2 with h | h
  · obtain ⟨s, hs, hc⟩ := hex
    refine ⟨s, hs, hc, ?_⟩
    have h1 := lowestSection_le l s hs hc
    have h2 := hr s hs
    have h3 : lowestSection l = 2 ^ 64 - 1 := h
    omega
  · exact h

/-- Without a copied section, `lowestSection` keeps its start value. -/
theorem lowestSection_none (l : List Section) (hno : ∀ s ∈ l, ¬ s.copied) :
    lowestSection l = 2 ^ 64 - 1 := by
  rcases (lowest_foldl l (2 ^ 64 - 1)).2.2 with h | ⟨s, hs, hc, _⟩
  · exact h
  · exact absurd hc (hno s hs)

theorem Contiguous.head {p q : Prog} {rest : List Prog} (h : Contiguous (p :: q :: rest)) :
    q.Paddr = p.Paddr + (fileBytes p).length := by
  unfold Contiguous contiguous at h
  simp only [Bool.and_eq_true, decide_eq_true_eq] at h
  exact h.1

theorem Contiguous.tail {p : Prog} {rest : List Prog} (h : Contiguous (p :: rest)) :
    Contiguous rest := by
  cases rest with
  | nil => simp [Contiguous, contiguous]
  | cons q qs =>
    unfold Contiguous contiguous at h
    simp only [Bool.and_eq_true, decide_eq_true_eq] at h
    exact h.2

/-- The loop of lines 56-66 on readable, contiguous segments appends all of
them. -/
theorem appendSegments_contiguous (base : Nat) (s : List Prog) (rom : List Nat)
    (hrange : ∀ p ∈ s, p.Paddr < 2 ^ 64)
    (hread : ∀ p ∈ s, p.body ≠ none)
    (hc : Contiguous s)
    (hhead : ∀ p, s.head? = some p → p.Paddr = base + rom.length) :
    appendSegments base s rom = .ok (rom ++ concatBytes s) := by
  induction s generalizing rom with
  | nil => simp [appendSegments, concatBytes]
  | cons p ps ih =>
    have hp := hhead p rfl
    have hlt := hrange p (List.mem_cons_self _ _)
    have hchk : p.Paddr = u64 (base + u64 rom.length) := by
      unfold u64; omega
    have hb := hread p (List.mem_cons_self _ _)
    obtain ⟨d, hd⟩ := Option.ne_none_iff_exists'.mp hb
    have hfb : fileBytes p = d := by simp [fileBytes, hd]
    unfold appendSegments
    rw [if_neg (by simpa using hchk)]
    simp only [hd]
    rw [ih (rom ++ d)
      (fun q hq => hrange q (List.mem_cons_of_mem _ hq))
      (fun q hq => hread q (List.mem_cons_of_mem _ hq))
      (Contiguous.tail hc)]
    · simp [concatBytes, hfb]
    · intro q hq
      cases ps with
      | nil => simp at hq
      | cons q' qs =>
        simp only [List.head?_cons, Option.some.injEq] at hq
        subst hq
        have := Contiguous.head hc
        rw [hfb] at this
        simp only [List.length_append]
        omega

/-- The loop of lines 56-66 stops with the non-contiguity error at the first
pair of neighbours that do not touch. -/
theorem appendSegments_break (base : Nat) (s : List Prog) (rom : List Nat)
    (hrange : ∀ p ∈ s, p.Paddr < 2 ^ 64 ∧ (fileBytes p).length < 2 ^ 63)
    (hread : ∀ p ∈ s, p.body ≠ none)
    (hsorted : s.Pairwise (fun p q => p.Paddr ≤ q.Paddr))
    (hhead : ∀ p, s.head? = some p → p.Paddr = base + rom.length)
    (i : Nat) (p q : Prog) (hp : s[i]? = some p) (hq : s[i + 1]? = some q)
    (hbad : q.Paddr ≠ p.Paddr + (fileBytes p).length) :
    appendSegments base s rom = .error "ROM segments are non-contiguous" := by
  induction s generalizing rom i with
  | nil => simp at hp
  | cons a as ih =>
    have ha := hhead a rfl
    have hlt := (hrange a (List.mem_cons_self _ _)).1
    have hlen := (hrange a (List.mem_cons_self _ _)).2
    have hchk : a.Paddr = u64 (base + u64 rom.length) := by
      unfold u64; omega
    obtain ⟨d, hd⟩ := Option.ne_none_iff_exists'.mp (hread a (List.mem_cons_self _ _))
    have hfb : fileBytes a = d := by simp [fileBytes, hd]
    rw [hfb] at hlen
    unfold appendSegments
    rw [if_neg (by simpa using hchk)]
    simp only [hd]
    cases as with
    | nil => simp at hq
    | cons b bs =>
      have hab : a.Paddr ≤ b.Paddr :=
        (List.pairwise_cons.mp hsorted).1 b (List.mem_cons_self _ _)
      by_cases htouch : b.Paddr = a.Paddr + d.length
      · cases i with
        | zero =>
          simp only [List.getElem?_cons_zero, Option.some.injEq, zero_add,
            List.getElem?_cons_succ] at hp hq
          subst hp; subst hq
          rw [hfb] at hbad
          exact absurd htouch hbad
        | succ j =>
          rw [List.getElem?_cons_succ] at hp hq
          exact ih (rom ++ d)
            (fun x hx => hrange x (List.mem_cons_of_mem _ hx))
            (fun x hx => hread x (List.mem_cons_of_mem _ hx))
            (List.pairwise_cons.mp hsorted).2
            (by
              intro x hx
              simp only [List.head?_cons, Option.some.injEq] at hx
              subst hx
              simp only [List.length_append]
              omega)
            j hp hq
      · unfold appendSegments
        rw [if_pos]
        simp only [List.length_append, u64]
        omega

/-- The segments handed to the loop are segments of the file. -/
theorem mem_sorted_loadable (sortFn : List Prog → List Prog) (hsort : SortContract sortFn)
    (f : File) (p : Prog) (hp : p ∈ sortFn (loadable f.Progs)) :
    p ∈ loadable f.Progs ∧ p ∈ f.Progs := by
  have h1 : p ∈ loadable f.Progs := (hsort _).1.mem_iff.mp hp
  exact ⟨h1, (List.mem_filter.mp h1).1⟩

/-- The result of `extractELF` once the loop has appended all segments. -/
theorem extractELF_of_appended (sortFn : List Prog → List Prog) (hsort : SortContract sortFn)
    (f : File) (first : Prog) (rest : List Prog) (rom : List Nat)
    (hsorted : sortFn (loadable f.Progs) = first :: rest)
    (hloop : appendSegments first.Paddr (first :: rest) [] = .ok rom) :
    extractELF sortFn f =
      if first.Paddr < lowestSection f.Sections then
        if lowestSection f.Sections - first.Paddr ≤ rom.length then
          .image (lowestSection f.Sections) (rom.drop (lowestSection f.Sections - first.Paddr))
        else .panic
      else .image first.Paddr rom := by
  have hlen : (loadable f.Progs).length = rest.length + 1 := by
    rw [← (hsort _).1.length_eq, hsorted]; simp
  unfold extractELF
  simp only []
  rw [if_neg (by omega)]
  simp only [hsorted, hloop]

/-- Image assembly where the slice of line 73 stays in range: for readable
loadable segments that are contiguous in the order `sort.Sort` leaves them in,
with `first` the lowest one, and with `startAddr` the lowest address of a
`PROGBITS`/`ALLOC` section, `extractELF` returns `(first.Paddr, all contents in
address order)` when `first.Paddr >= startAddr`, and returns `(startAddr, the
same bytes without the first startAddr - first.Paddr)` when
`first.Paddr < startAddr` and that offset is within the concatenation. -/
theorem extractELF_image (sortFn : List Prog → List Prog) (hsort : SortContract sortFn)
    (f : File) (hrange : InRange f) (hread : Readable f)
    (first : Prog) (rest : List Prog)
    (hsorted : sortFn (loadable f.Progs) = first :: rest)
    (hc : Contiguous (first :: rest)) :
    (∀ p ∈ loadable f.Progs, first.Paddr ≤ p.Paddr) ∧
    (∀ s ∈ f.Sections, s.copied → lowestSection f.Sections ≤ s.Addr) ∧
    ((∃ s ∈ f.Sections, s.copied) →
      ∃ s ∈ f.Sections, s.copied ∧ s.Addr = lowestSection f.Sections) ∧
    (lowestSection f.Sections ≤ first.Paddr →
      extractELF sortFn f = .image first.Paddr (concatBytes (first :: rest))) ∧
    (first.Paddr < lowestSection f.Sections →
      lowestSection f.Sections - first.Paddr ≤ (concatBytes (first :: rest)).length →
      extractELF sortFn f = .image (lowestSection f.Sections)
        ((concatBytes (first :: rest)).drop (lowestSection f.Sections - first.Paddr))) := by
  have hmem : ∀ p ∈ first :: rest, p ∈ loadable f.Progs ∧ p ∈ f.Progs := by
    intro p hp
    rw [← hsorted] at hp
    exact mem_sorted_loadable sortFn hsort f p hp
  have hloop : appendSegments first.Paddr (first :: rest) [] =
      .ok (concatBytes (first :: rest)) := by
    have := appendSegments_contiguous first.Paddr (first :: rest) []
      (fun p hp => (hrange.2 p (hmem p hp).2).1)
      (fun p hp => hread p (hmem p hp).1) hc
      (by intro p hp; simp only [List.head?_cons, Option.some.injEq] at hp; subst hp; simp)
    simpa using this
  have hres := extractELF_of_appended sortFn hsort f first rest _ hsorted hloop
  refine ⟨?_, fun s hs hcop => lowestSection_le _ s hs hcop,
    lowestSection_attained _ hrange.1, ?_, ?_⟩
  · intro p hp
    have hp2 : p ∈ first :: rest := by
      rw [← hsorted]; exact (hsort _).1.mem_iff.mpr hp
    have hpw := (hsort (loadable f.Progs)).2
    rw [hsorted, List.pairwise_cons] at hpw
    rcases List.mem_cons.mp hp2 with rfl | hp2
    · exact le_refl _
    · exact hpw.1 p hp2
  · intro hle
    rw [hres, if_neg (by omega)]
  · intro hlt hoff
    rw [hres, if_pos hlt, if_pos hoff]

/-- C1 fails on the code: the single segment of `sectionBehindImage` (four
bytes at address 0) is readable and contiguous and starts below the lowest
`PROGBITS`/`ALLOC` section (address 0x100), so the claim asks for
`(0x100, the bytes without their first 0x100)`; line 73 evaluates `rom[0x100:]`
on four bytes without a bound check and the call ends in a run-time panic. -/
theorem extractELF_sectionBehindImage_panics :
    InRange sectionBehindImage ∧ Readable sectionBehindImage ∧
    Contiguous (sortProgs (loadable sectionBehindImage.Progs)) ∧
    (sortProgs (loadable sectionBehindImage.Progs)).map Prog.Paddr = [0] ∧
    (∃ s ∈ sectionBehindImage.Sections, s.copied ∧ s.Addr = 0x100) ∧
    lowestSection sectionBehindImage.Sections = 0x100 ∧
    extractELF sortProgs sectionBehindImage = .panic ∧
    extractELF sortProgs sectionBehindImage ≠
      .image 0x100 ((concatBytes (sortProgs (loadable sectionBehindImage.Progs))).drop 0x100) := by
  refine ⟨?_, ?_, ?_, ?_, ?_, ?_, ?_, ?_⟩
  · decide
  · decide
  · decide
  · decide
  · decide
  · decide
  · decide
  · decide

/-- The in-range image assembly on `twoSegments`, whose segments are listed
in reverse address order and start two bytes below the code section. -/
theorem extractELF_image_twoSegments :
    extractELF sortProgs twoSegments = .image 2 [3, 4, 7, 8] :=
  (extractELF_image sortProgs sortProgs_contract twoSegments
    (by decide) (by decide)
    ⟨PT_LOAD, 0, 4, some [1, 2, 3, 4]⟩ [⟨PT_LOAD, 4, 2, some [7, 8]⟩]
    (by decide) (by decide)).2.2.2.2 (by decide) (by decide)

/-- C5: when the kept segments, in the order `sort.Sort` leaves them in,
contain two neighbours `p`, `q` with `q.Paddr ≠ p.Paddr + len(p's bytes)` (a
gap, an overlap or an equal address), `extractELF` returns the error
"ROM segments are non-contiguous" and no image. -/
theorem extractELF_noncontiguous (sortFn : List Prog → List Prog)
    (hsort : SortContract sortFn) (f : File) (hrange : InRange f) (hread : Readable f)
    (i : Nat) (p q : Prog)
    (hp : (sortFn (loadable f.Progs))[i]? = some p)
    (hq : (sortFn (loadable f.Progs))[i + 1]? = some q)
    (hbad : q.Paddr ≠ p.Paddr + (fileBytes p).length) :
    extractELF sortFn f = .failure "ROM segments are non-contiguous" := by
  have hmem : ∀ x ∈ sortFn (loadable f.Progs), x ∈ loadable f.Progs ∧ x ∈ f.Progs :=
    fun x hx => mem_sorted_loadable sortFn hsort f x hx
  have hpw := (hsort (loadable f.Progs)).2
  have hlen := (hsort (loadable f.Progs)).1.length_eq
  cases hs : sortFn (loadable f.Progs) with
  | nil => rw [hs] at hp; simp at hp
  | cons first rest =>
    rw [hs] at hp hq hmem hpw hlen
    have hloop := appendSegments_break first.Paddr (first :: rest) []
      (fun x hx => hrange.2 x (hmem x hx).2)
      (fun x hx => hread x (hmem x hx).1) hpw
      (by intro x hx; simp only [List.head?_cons, Option.some.injEq] at hx; subst hx; simp)
      i p q hp hq hbad
    unfold extractELF
    simp only []
    rw [if_neg (by simp only [List.length_cons] at hlen; omega)]
    simp only [hs, hloop]

/-- Witness of C5 on `gapSegments`: two bytes are missing between the
segment at 0 (four bytes) and the segment at 6. -/
theorem extractELF_noncontiguous_witness :
    extractELF sortProgs gapSegments = .failure "ROM segments are non-contiguous" :=
  extractELF_noncontiguous sortProgs sortProgs_contract gapSegments
    (by decide) (by decide) 0
    ⟨PT_LOAD, 0, 4, some [1, 2, 3, 4]⟩ ⟨PT_LOAD, 6, 2, some [7, 8]⟩
    (by decide) (by decide) (by decide)

/-- C10 fails on the code: `noSections` has no `PROGBITS`/`ALLOC` section, so
`startAddr` keeps the value `2^64 - 1`; its single segment passes the non-empty
and contiguity checks, the trim offset `2^64 - 1` exceeds the four bytes of the
image, and the slice expression panics. -/
theorem extractELF_noSections_panics :
    (∀ s ∈ noSections.Sections, ¬ s.copied) ∧
    lowestSection noSections.Sections = 2 ^ 64 - 1 ∧
    loadable noSections.Progs ≠ [] ∧
    appendSegments 0 (sortProgs (loadable noSections.Progs)) [] = .ok [1, 2, 3, 4] ∧
    ¬ (lowestSection noSections.Sections - 0 ≤ [1, 2, 3, 4].length) ∧
    extractELF sortProgs noSections = .panic := by
  refine ⟨?_, ?_, ?_, ?_, ?_, ?_⟩
  · intro s hs; simp [noSections] at hs
  · decide
  · decide
  · rfl
  · decide
  · decide

/-! ## Theorems about `main` -/

/-- The loop of lines 188-191 needs no more iterations than `fuel` allows
once `20 * fuel` covers what is left of the image. -/
theorem writeLoop_fuel (env : Env) (conn : Nat) (data : ByteSlice) (rest : Run)
    (fuel i : Nat) (h : data.len ≤ i + 20 * fuel) :
    writeLoop env conn data rest (fuel + 1) i = writeLoop env conn data rest fuel i := by
  induction fuel generalizing i with
  | zero =>
    simp only [writeLoop]
    rw [if_neg (by omega)]
  | succ n ih =>
    rw [writeLoop]
    conv_rhs => rw [writeLoop]
    split
    · split
      · rfl
      · rw [ih (i + 20) (by omega)]
    · rfl

/-- The write phase gives the same run with any number of iterations allowed
beyond `len(data)`. -/
theorem writePhase_fuel (env : Env) (conn : Nat) (data : ByteSlice) (queue : List Nat)
    (extra : Nat) :
    writeLoop env conn data (awaitWrite env conn queue) (data.len + extra) 0 =
      writePhase env conn data queue := by
  induction extra with
  | zero => rfl
  | succ k ih =>
    rw [← ih, ← Nat.add_assoc]
    exact writeLoop_fuel env conn data _ (data.len + k) 0 (by omega)

/-- C2 fails on the code: for the 45-byte image the third slice expression is
`data[40:60]`.  With a capacity of 48 it panics after two chunks; with a
capacity of 64 the third chunk has 20 bytes, 15 of them from behind the
image. -/
theorem writePhase_45_bytes (env : Env) (queue : List Nat) :
    (image45 48).bytes = List.replicate 45 0xAA ∧
    (writePhase env 0 (image45 48) queue).chunks =
      [List.replicate 20 0xAA, List.replicate 20 0xAA] ∧
    (writePhase env 0 (image45 48) queue).outcome = .panicked ∧
    (image45 64).bytes = List.replicate 45 0xAA ∧
    (writePhase env 0 (image45 64) (0x04 :: queue)).chunks =
      [List.replicate 20 0xAA, List.replicate 20 0xAA,
       List.replicate 5 0xAA ++ List.replicate 15 0] ∧
    (writePhase env 0 (image45 64) (0x04 :: queue)).outcome = .completed := by
  refine ⟨by decide, rfl, rfl, by decide, rfl, rfl⟩

/-- `putUint32` on a value below `2^32`: the four base-256 digits, lowest
first. -/
theorem putUint32_digits (v : Nat) :
    putUint32 v = [v % 256, v / 256 % 256, v / 65536 % 256, v / 16777216 % 256] := by
  simp [putUint32, Nat.shiftRight_eq_div_pow]

/-- With a healthy start-up and kick, the commands written begin with the kick
followed by the contents of `buf`. -/
theorem main_commands_begin (env : Env) (startAddr : Nat) (data : ByteSlice)
    (hconn : env.connected) (hkick : env.kickErr = none) :
    ∃ more, (main env (.ok (startAddr, data))).commands =
      [commandResetBootloader] :: eraseCommand startAddr data.len :: more := by
  obtain ⟨h1, h2, h3, h4, h5, h6⟩ := hconn
  unfold main
  simp only []
  split
  all_goals
    simp only [session, startErase, h1, h2, h3, h4, h5, h6, hkick, handleError, Run.after,
      Run.commands, List.filterMap_cons]
    exact ⟨_, rfl⟩

/-- C3: when `A + N ≤ 0xFFFFFFFF`, the `StartErase` command is the byte 0x02,
three zero bytes, the four base-256 digits of `A` lowest first, then those of
`N`; and it is what `main` writes to the command characteristic right after the
kick. -/
theorem eraseCommand_encoding (A N : Nat) (h : A + N ≤ 0xFFFFFFFF) :
    eraseCommand A N =
      [0x02, 0, 0, 0,
       A % 256, A / 256 % 256, A / 65536 % 256, A / 16777216 % 256,
       N % 256, N / 256 % 256, N / 65536 % 256, N / 16777216 % 256] ∧
    A % 256 + 256 * (A / 256 % 256) + 65536 * (A / 65536 % 256)
      + 16777216 * (A / 16777216 % 256) = A ∧
    N % 256 + 256 * (N / 256 % 256) + 65536 * (N / 65536 % 256)
      + 16777216 * (N / 16777216 % 256) = N ∧
    ∀ (env : Env) (data : ByteSlice), data.len = N → env.connected →
      env.kickErr = none →
      ∃ more, (main env (.ok (A, data))).commands =
        [0x00] :: eraseCommand A N :: more := by
  have hA : u32 A = A := by unfold u32; omega
  have hN : u32 N = N := by unfold u32; omega
  refine ⟨?_, by omega, by omega, ?_⟩
  · simp [eraseCommand, hA, hN, putUint32_digits, commandStart]
  · intro env data hlen hconn hkick
    have := main_commands_begin env A data hconn hkick
    rw [hlen] at this
    exact this

/-- Witness of C3: load address 0x1000 and 45 bytes give
`02 00 00 00 00 10 00 00 2D 00 00 00`. -/
theorem eraseCommand_encoding_witness :
    eraseCommand 0x1000 45 = [0x02, 0, 0, 0, 0x00, 0x10, 0x00, 0x00, 0x2D, 0x00, 0x00, 0x00] :=
  (eraseCommand_encoding 0x1000 45 (by decide)).1.trans (by decide)

/-- C4 fails on the code: for the load address `2^32` and a 20-byte image
line 58 reports the range, and the run goes on: the adapter is enabled, the
device is connected, the flash is erased from the truncated address 0, the
chunk is written, and `main` returns. -/
theorem main_continues_after_noFit :
    0x100000000 + (ByteSlice.exact (List.replicate 20 0xAA)).len > 0xffffffff ∧
    main (Env.healthy [0x03, 0x04]) (.ok (0x100000000, ByteSlice.exact (List.replicate 20 0xAA)))
      = ⟨[.noFit 0x100000000 0x100000014, .enable, .scan, .connect 7, .discoverServices 0,
          .discoverCharacteristics 0, .enableNotifications 0,
          .command 0 [0x00] none,
          .command 0 [0x02, 0, 0, 0, 0, 0, 0, 0, 20, 0, 0, 0] none,
          .status 0x03,
          .data 0 (List.replicate 20 0xAA) none,
          .status 0x04,
          .command 0 [0x01] none], .completed⟩ := by
  decide

/-- C6: the erase wait takes the second received byte as terminal status when
the first is 0x02 and the first otherwise; the write phase starts exactly when
the terminal status is 0x03, the bytes 0x20, 0x21, 0x10, 0x30 end the run with
their own reason and every other byte with the unknown-error reason; the write
wait ends well exactly for 0x04, with the write-failed and write-too-fast
reasons for 0x31 and 0x32, and with the unknown-code reason otherwise. -/
theorem status_interpretation (env : Env) (conn startAddr : Nat) (data : ByteSlice)
    (queue : List Nat) :
    (∀ s1, s1 ≠ 0x02 → awaitErase env conn startAddr data (s1 :: queue) =
      Run.after (.status s1) (afterErase env conn startAddr data s1 queue)) ∧
    (∀ s2, awaitErase env conn startAddr data (0x02 :: s2 :: queue) =
      Run.after (.status 0x02)
        (Run.after (.status s2) (afterErase env conn startAddr data s2 queue))) ∧
    afterErase env conn startAddr data 0x03 queue = writePhase env conn data queue ∧
    (∀ t, t ≠ 0x03 → ∃ reason, afterErase env conn startAddr data t queue =
      ⟨[], .exited "could not erase flash" reason⟩) ∧
    afterErase env conn startAddr data 0x20 queue =
      ⟨[], .exited "could not erase flash" ("invalid start address: 0x" ++ hex startAddr)⟩ ∧
    afterErase env conn startAddr data 0x21 queue =
      ⟨[], .exited "could not erase flash" ("invalid length: 0x" ++ hex data.len)⟩ ∧
    afterErase env conn startAddr data 0x10 queue =
      ⟨[], .exited "could not erase flash" "an operation is already in progress"⟩ ∧
    afterErase env conn startAddr data 0x30 queue =
      ⟨[], .exited "could not erase flash" "failed to erase flash"⟩ ∧
    (∀ t, t ≠ 0x03 → t ≠ 0x20 → t ≠ 0x21 → t ≠ 0x10 → t ≠ 0x30 →
      afterErase env conn startAddr data t queue =
        ⟨[], .exited "could not erase flash" ("unknown error (0x" ++ hex t ++ ")")⟩) ∧
    (∀ s, (awaitWrite env conn (s :: queue)).outcome = .completed ↔ s = 0x04) ∧
    awaitWrite env conn (0x04 :: queue) =
      ⟨[.status 0x04, .command conn [0x01] env.resetErr], .completed⟩ ∧
    awaitWrite env conn (0x31 :: queue) =
      ⟨[.status 0x31], .exited "failed to write new application" "write failed"⟩ ∧
    awaitWrite env conn (0x32 :: queue) =
      ⟨[.status 0x32], .exited "failed to write new application" "write was too fast"⟩ ∧
    (∀ s, s ≠ 0x04 → s ≠ 0x31 → s ≠ 0x32 → awaitWrite env conn (s :: queue) =
      ⟨[.status s],
        .exited "failed to write new application" ("unknown (code 0x" ++ hex s ++ ")")⟩) := by
  refine ⟨?_, ?_, ?_, ?_, ?_, ?_, ?_, ?_, ?_, ?_, ?_, ?_, ?_, ?_⟩
  · intro s1 h
    simp only [awaitErase, statusEraseStarted]
    rw [if_neg h]
  · intro s2
    simp [awaitErase, statusEraseStarted]
  · simp [afterErase, eraseStatusError, statusEraseFinished, handleError]
  · intro t ht
    unfold afterErase eraseStatusError
    rw [if_neg (by simpa [statusEraseFinished] using ht)]
    split_ifs <;> exact ⟨_, rfl⟩
  · simp [afterErase, eraseStatusError, statusEraseFinished, statusInvalidEraseStart,
      handleError]
  · simp [afterErase, eraseStatusError, statusEraseFinished, statusInvalidEraseStart,
      statusInvalidEraseLength, handleError]
  · simp [afterErase, eraseStatusError, statusEraseFinished, statusInvalidEraseStart,
      statusInvalidEraseLength, statusBusy, handleError]
  · simp [afterErase, eraseStatusError, statusEraseFinished, statusInvalidEraseStart,
      statusInvalidEraseLength, statusBusy, statusEraseFailed, handleError]
  · intro t h1 h2 h3 h4 h5
    simp [afterErase, eraseStatusError, statusEraseFinished, statusInvalidEraseStart,
      statusInvalidEraseLength, statusBusy, statusEraseFailed, handleError, h1, h2, h3, h4, h5]
  · intro s
    unfold awaitWrite writeStatusError
    by_cases h : s = 0x04
    · simp [h, statusWriteFinished, handleError, Run.after]
    · simp only [statusWriteFinished, h, if_false, iff_false]
      split_ifs <;> simp [handleError, Run.after]
  · simp [awaitWrite, writeStatusError, statusWriteFinished, handleError, Run.after,
      commandReset]
  · simp [awaitWrite, writeStatusError, statusWriteFinished, statusWriteFailed, handleError,
      Run.after]
  · simp [awaitWrite, writeStatusError, statusWriteFinished, statusWriteFailed,
      statusWriteTooFast, handleError, Run.after]
  · intro s h1 h2 h3
    simp [awaitWrite, writeStatusError, statusWriteFinished, statusWriteFailed,
      statusWriteTooFast, handleError, Run.after, h1, h2, h3]

/-- Witness of C6: the unmapped terminal status 0x02 (after a first 0x02) and
the unmapped write status 0x05. -/
theorem status_interpretation_witness :
    awaitErase (Env.healthy []) 0 0x1000 (image45 64) [0x02, 0x02] =
      ⟨[.status 0x02, .status 0x02], .exited "could not erase flash" "unknown error (0x2)"⟩ ∧
    awaitWrite (Env.healthy []) 0 [0x05] =
      ⟨[.status 0x05], .exited "failed to write new application" "unknown (code 0x5)"⟩ := by
  have h := status_interpretation (Env.healthy []) 0 0x1000 (image45 64) []
  refine ⟨?_, ?_⟩
  · rw [h.2.1 0x02,
      h.2.2.2.2.2.2.2.2.1 0x02 (by decide) (by decide) (by decide) (by decide) (by decide)]
    decide
  · rw [h.2.2.2.2.2.2.2.2.2.2.2.2.2 0x05 (by decide) (by decide) (by decide)]
    decide

/-- C7 fails on the code: on `Env.retryFails` the first `StartErase` write and
the retry after the reconnect both return "Not connected"; the error of the
retry is dropped, the run waits for the erase status, writes the chunk and
returns from `main`. -/
theorem main_ignores_failed_retry :
    main Env.retryFails (.ok (0x1000, ByteSlice.exact (List.replicate 20 0xAA)))
      = ⟨[.enable, .scan, .connect 7, .discoverServices 0,
          .discoverCharacteristics 0, .enableNotifications 0,
          .command 0 [0x00] none,
          .command 0 [0x02, 0, 0, 0, 0, 0x10, 0, 0, 20, 0, 0, 0] (some "Not connected"),
          .rescan 7, .connect 7, .discoverServices 1, .discoverCharacteristics 1,
          .command 1 [0x02, 0, 0, 0, 0, 0x10, 0, 0, 20, 0, 0, 0] (some "Not connected"),
          .status 0x03,
          .data 1 (List.replicate 20 0xAA) none,
          .status 0x04,
          .command 1 [0x01] none], .completed⟩ := by
  decide

/-- C9: the handler runs the reset sequence (SVCall 0x11 to disable the
SoftDevice, GPREGRET set to 1, system reset, in this order) exactly for a write
at offset 0 of the single byte 0x00, and does nothing for any other write; the
kick payload triggers it, the `StartErase` payload and the `ResetNormal`
payload do not. -/
theorem writeEvent_reset (offset : Int) (value : List Nat) :
    (writeEvent offset value = [.svcall0 0x11, .setGPREGRET 1, .systemReset] ↔
      offset = 0 ∧ value = [0x00]) ∧
    (¬ (offset = 0 ∧ value = [0x00]) → writeEvent offset value = []) ∧
    writeEvent 0 [commandResetBootloader] = [.svcall0 0x11, .setGPREGRET 1, .systemReset] ∧
    (∀ startAddr len, writeEvent 0 (eraseCommand startAddr len) = []) ∧
    writeEvent 0 [commandReset] = [] := by
  have hval : (value.length = 1 ∧ value.head? = some 0) ↔ value = [0] := by
    cases value with
    | nil => simp
    | cons a as =>
      cases as with
      | nil => simp
      | cons b bs => simp
  refine ⟨?_, ?_, by decide, ?_, by decide⟩
  · unfold writeEvent
    constructor
    · intro h
      by_cases hc : offset = 0 ∧ value.length = 1 ∧ value.head? = some 0
      · exact ⟨hc.1, hval.mp hc.2⟩
      · rw [if_neg hc] at h
        simp at h
    · rintro ⟨h1, h2⟩
      subst h1; subst h2
      simp
  · intro h
    unfold writeEvent
    rw [if_neg]
    intro hc
    exact h ⟨hc.1, hval.mp hc.2⟩
  · intro startAddr len
    simp [writeEvent, eraseCommand, putUint32]

/-- Witness of C9: a write of `[0x00]` at offset 1 and a write of `[0x00, 0x00]`
at offset 0 do nothing. -/
theorem writeEvent_reset_witness :
    writeEvent 1 [0x00] = [] ∧ writeEvent 0 [0x00, 0x00] = [] :=
  ⟨(writeEvent_reset 1 [0x00]).2.1 (by decide),
   (writeEvent_reset 0 [0x00, 0x00]).2.1 (by decide)⟩

theorem Run.Agree.refl (r : Run) : r.Agree r := ⟨rfl, rfl, rfl⟩

theorem Run.Agree.after (e : Event) {r r' : Run} (h : r.Agree r') :
    (Run.after e r).Agree (Run.after e r') := by
  obtain ⟨h1, h2, h3⟩ := h
  unfold Run.chunks at h2
  unfold Run.commands at h3
  refine ⟨h1, ?_, ?_⟩
  · simp only [Run.chunks, Run.after, List.filterMap_cons]; rw [h2]
  · simp only [Run.commands, Run.after, List.filterMap_cons]; rw [h3]

theorem Run.Agree.data (conn : Nat) (payload : List Nat) (e e' : Option String) {r r' : Run}
    (h : r.Agree r') :
    (Run.after (.data conn payload e) r).Agree (Run.after (.data conn payload e') r') := by
  obtain ⟨h1, h2, h3⟩ := h
  unfold Run.chunks at h2
  unfold Run.commands at h3
  refine ⟨h1, ?_, ?_⟩
  · simp only [Run.chunks, Run.after, List.filterMap_cons]; rw [h2]
  · simp only [Run.commands, Run.after, List.filterMap_cons]; rw [h3]

theorem Run.Agree.handle (msg : String) (err : Option String) {r r' : Run} (h : r.Agree r') :
    (handleError msg err r).Agree (handleError msg err r') := by
  cases err with
  | none => exact h
  | some e => exact Run.Agree.refl _

/-- The loop of lines 188-191 never looks at what the chunk writes return. -/
theorem writeLoop_chunkErr (env : Env) (c : Nat → Option String) (conn : Nat)
    (data : ByteSlice) (rest : Run) (fuel i : Nat) :
    (writeLoop { env with chunkErr := c } conn data rest fuel i).Agree
      (writeLoop env conn data rest fuel i) := by
  induction fuel generalizing i with
  | zero => exact Run.Agree.refl _
  | succ n ih =>
    simp only [writeLoop]
    split
    · split
      · exact Run.Agree.refl _
      · exact Run.Agree.data _ _ _ _ (ih _)
    · exact Run.Agree.refl _

/-- Lines 162-211 never look at what the chunk writes return. -/
theorem awaitErase_chunkErr (env : Env) (c : Nat → Option String) (conn startAddr : Nat)
    (data : ByteSlice) (queue : List Nat) :
    (awaitErase { env with chunkErr := c } conn startAddr data queue).Agree
      (awaitErase env conn startAddr data queue) := by
  have hafter : ∀ status q, (afterErase { env with chunkErr := c } conn startAddr data status q).Agree
      (afterErase env conn startAddr data status q) := by
    intro status q
    unfold afterErase
    exact Run.Agree.handle _ _ (writeLoop_chunkErr env c conn data _ _ _)
  unfold awaitErase
  cases queue with
  | nil => exact Run.Agree.refl _
  | cons s1 q1 =>
    simp only []
    apply Run.Agree.after
    split
    · cases q1 with
      | nil => exact Run.Agree.refl _
      | cons s2 q2 => exact Run.Agree.after _ (hafter _ _)
    · exact hafter _ _

/-- Lines 61-211 never look at what the chunk writes return. -/
theorem session_chunkErr (env : Env) (c : Nat → Option String) (startAddr : Nat)
    (data : ByteSlice) :
    (session { env with chunkErr := c } startAddr data).Agree (session env startAddr data) := by
  unfold session startErase
  simp only []
  repeat first
    | apply Run.Agree.after
    | apply Run.Agree.handle
  split
  · repeat first
      | apply Run.Agree.after
      | apply Run.Agree.handle
    exact awaitErase_chunkErr env c 1 startAddr data _
  · apply Run.Agree.handle
    exact awaitErase_chunkErr env c 0 startAddr data _

/-- C8 as stated fails: on `Env.chunkFails` the write of the first chunk
reports a lost link, and the run still writes the second chunk, waits for the
write status, sends `ResetNormal` and returns from `main`. -/
theorem main_ignores_failed_chunk :
    main Env.chunkFails (.ok (0x1000, ByteSlice.exact (List.replicate 40 0xAA)))
      = ⟨[.enable, .scan, .connect 7, .discoverServices 0,
          .discoverCharacteristics 0, .enableNotifications 0,
          .command 0 [0x00] none,
          .command 0 [0x02, 0, 0, 0, 0, 0x10, 0, 0, 40, 0, 0, 0] none,
          .status 0x03,
          .data 0 (List.replicate 20 0xAA) (some "Not connected"),
          .data 0 (List.replicate 20 0xAA) none,
          .status 0x04,
          .command 0 [0x01] none], .completed⟩ := by
  decide

/-- C8 (amended): when the `ResetToUpdateMode` write fails, the run ends in
failure with that write as its only one (no further command, no chunk); what
the writes of the data chunks return has no influence on how the run ends nor
on the payloads written to either characteristic. -/
theorem kick_fatal_chunk_errors_ignored (env : Env) (startAddr : Nat) (data : ByteSlice) :
    (∀ e, env.connected → env.kickErr = some e →
      (main env (.ok (startAddr, data))).outcome =
        .exited "failed to send reset bootloader command" e ∧
      (main env (.ok (startAddr, data))).commands = [[0x00]] ∧
      (main env (.ok (startAddr, data))).chunks = []) ∧
    (∀ c : Nat → Option String,
      (main { env with chunkErr := c } (.ok (startAddr, data))).outcome =
        (main env (.ok (startAddr, data))).outcome ∧
      (main { env with chunkErr := c } (.ok (startAddr, data))).chunks =
        (main env (.ok (startAddr, data))).chunks ∧
      (main { env with chunkErr := c } (.ok (startAddr, data))).commands =
        (main env (.ok (startAddr, data))).commands) := by
  constructor
  · rintro e ⟨h1, h2, h3, h4, h5, h6⟩ hkick
    unfold main
    simp only []
    split <;>
      simp [session, h1, h2, h3, h4, h5, h6, hkick, handleError, Run.after, Run.commands,
        Run.chunks, commandResetBootloader]
  · intro c
    have h := session_chunkErr env c startAddr data
    unfold main
    simp only []
    split
    · exact Run.Agree.after _ h
    · exact h

/-- Witness of C8 (amended) on `Env.kickFails`. -/
theorem kick_fatal_chunk_errors_ignored_witness :
    (main Env.kickFails (.ok (0x1000, image45 64))).outcome =
      .exited "failed to send reset bootloader command" "Not connected" ∧
    (main Env.kickFails (.ok (0x1000, image45 64))).commands = [[0x00]] ∧
    (main Env.kickFails (.ok (0x1000, image45 64))).chunks = [] :=
  (kick_fatal_chunk_errors_ignored Env.kickFails 0x1000 (image45 64)).1 "Not connected"
    (by decide) (by decide)

end Bootloader
